import Mathlib

/-!
Verification development for the character-crafter repository.

The definitions below are a shallow embedding of the source files:

* `services/geminiService.ts` — the retrying wrappers
  `generateCharacterImage` / `generateSceneImage` around the hosted
  image-generation API (data-URL parsing, response handling, error
  classification, bounded exponential backoff);
* the sheet compositor `createCharacterSheet` (canvas grid layout);
* the top-level `App` component's state handlers (`handleImageUpload`,
  `generateBaseModel`, `handleApproveAndGenerateSheet`,
  `handleCharacterEdited`, `handleReset`, `handleDownloadSheet`).

External effects (the network call, canvas pixel encoding, the file
reader) are abstracted as oracles passed in as arguments; everything
the source computes itself is translated directly.
-/

namespace CharacterCrafter

/-- The `inlineData` payload of a response part: a mime type and
base64-encoded image bytes, as in the Gemini SDK response shape. -/
structure InlineData where
  mimeType : String
  data : String
  deriving Repr, DecidableEq

/-- One part of a response candidate: optional inline image data and
optional text (the source only inspects `inlineData`). -/
structure RespPart where
  inlineData : Option InlineData := none
  text : Option String := none
  deriving Repr, DecidableEq

/-- The `content` object of a candidate, holding an optional parts list. -/
structure RespContent where
  parts : Option (List RespPart) := none
  deriving Repr, DecidableEq

/-- One candidate of a Gemini response. -/
structure Candidate where
  content : Option RespContent := none
  deriving Repr, DecidableEq

/-- A `GenerateContentResponse`: an optional candidate list and the SDK's
`text` accessor (used only in the error message for text-only replies). -/
structure GenResponse where
  candidates : Option (List Candidate) := none
  text : Option String := none
  deriving Repr, DecidableEq

/-- A JavaScript error value as the catch block distinguishes them:
either an `Error` instance carrying `message`, or any other thrown value,
represented by its JSON serialization (the catch block only ever uses
`JSON.stringify(error)` of it). -/
inductive JSError where
  | errorObj (message : String)
  | other (json : String)
  deriving Repr, DecidableEq

/-- The message text the catch block derives from a caught value:
`error.message` for an `Error`, otherwise `JSON.stringify(error)`. -/
def errorMessageOf : JSError → String
  | .errorObj m => m
  | .other j => j

/-- Whether `l` starts with the character list `p`. -/
def leadsWith : List Char → List Char → Bool
  | [], _ => true
  | _ :: _, [] => false
  | p :: ps, c :: cs => p == c && leadsWith ps cs

/-- Whether the character list `pat` occurs contiguously inside `l`
(the semantics of JavaScript `String.prototype.includes` for the ASCII
patterns the source uses). -/
def hasSub (pat : List Char) : List Char → Bool
  | [] => pat.isEmpty
  | c :: cs => leadsWith pat (c :: cs) || hasSub pat cs

/-- `s.includes pat` for strings. -/
def containsSubstr (s pat : String) : Bool := hasSub pat.toList s.toList

/-- Error classification of `geminiService.ts`: a caught error is retryable
exactly when its message text contains one of five substrings. -/
def isRetryableError (errorMessage : String) : Bool :=
  containsSubstr errorMessage "\"code\":500" ||
  containsSubstr errorMessage "INTERNAL" ||
  containsSubstr errorMessage "\"code\":429" ||
  containsSubstr errorMessage "RESOURCE_EXHAUSTED" ||
  containsSubstr errorMessage "xhr error"

/-- JavaScript word characters, the class matched by a regex word escape. -/
def isWordChar (c : Char) : Bool := c.isAlpha || c.isDigit || c == '_'

/-- Characters matched by the regex dot without the dotall flag:
everything except the four JavaScript line terminators. -/
def isDotChar (c : Char) : Bool :=
  !(c == '\n' || c == '\r' || c == '\u2028' || c == '\u2029')

/-- The source's data-URL regex match: a string matches when it is
`data:image/` followed by one or more word characters, then `;base64,`,
then any run of non-line-terminator characters to the end of the string.
On success the result is the two capture groups (mime type, base64 data). -/
def parseDataUrl (s : String) : Option (String × String) :=
  let cs := s.toList
  let pre := "data:image/".toList
  if cs.take pre.length == pre then
    let rest := cs.drop pre.length
    let word := rest.takeWhile isWordChar
    let after := rest.dropWhile isWordChar
    let mid := ";base64,".toList
    if word.isEmpty then none
    else if after.take mid.length == mid then
      let dataPart := after.drop mid.length
      if dataPart.all isDotChar then
        some (String.mk ("image/".toList ++ word), String.mk dataPart)
      else none
    else none
  else none

/-- Message thrown by `generateCharacterImage` for a malformed data URL. -/
def charInvalidMsg : String :=
  "Invalid image data URL format. Expected 'data:image/...;base64,...'"

/-- Message thrown by `generateSceneImage` for a malformed data URL. -/
def sceneInvalidMsg : String :=
  "Invalid image data URL format. Expected 'data:image/<format>;base64,<data>'"

/-- The `imageDataUrls.map(...)` argument processing: parse each data URL
left to right, throwing `invalidMsg` at the first element the regex
rejects; on success the list of inline-data request parts. -/
def imagePartsOf (invalidMsg : String) : List String → Except String (List InlineData)
  | [] => .ok []
  | u :: us =>
    match parseDataUrl u with
    | none => .error invalidMsg
    | some md => (imagePartsOf invalidMsg us).map (fun rest => ⟨md.1, md.2⟩ :: rest)

/-- The optional chain `response.candidates?.[0]?.content?.parts`:
the parts list of the first candidate, when every link is present. -/
def firstCandidateParts (r : GenResponse) : Option (List RespPart) :=
  match r.candidates with
  | none => none
  | some [] => none
  | some (c :: _) =>
    match c.content with
    | none => none
    | some ct => ct.parts

/-- `...parts?.find(part => part.inlineData)`: the first part of the first
candidate whose `inlineData` is present. -/
def firstInlinePart (r : GenResponse) : Option RespPart :=
  (firstCandidateParts r).bind (fun ps => ps.find? (fun p => p.inlineData.isSome))

/-- The parts list reachable from a candidate (empty when a link of the
optional chain is absent). -/
def candidateParts (c : Candidate) : List RespPart :=
  match c.content with
  | none => []
  | some ct => ct.parts.getD []

/-- Whether any part of any candidate of the response carries inline
image data (the spec-level notion of the response containing an
inline-image part). -/
def responseHasInlineImage (r : GenResponse) : Bool :=
  (r.candidates.getD []).any
    (fun c => (candidateParts c).any (fun p => p.inlineData.isSome))

/-- The successful return value built from an inline-data part. -/
def mkDataUrl (d : InlineData) : String :=
  "data:" ++ d.mimeType ++ ";base64," ++ d.data

/-- `textResponse || 'No text response received.'`: JavaScript falls back
on an absent or empty text accessor. -/
def textFallback : Option String → String
  | some t => if t == "" then "No text response received." else t
  | none => "No text response received."

/-- Outcome of one external `ai.models.generateContent` call: either a
response object or a thrown value. The network is abstracted as an
oracle `Nat → ApiOutcome` giving the outcome of each numbered attempt. -/
inductive ApiOutcome where
  | response (r : GenResponse)
  | failure (e : JSError)
  deriving Repr, DecidableEq

/-- The body of one try block: a successful call with an inline-image
part returns the data URL; a response without one throws the
text-instead-of-image error; a failed call propagates its error. -/
def attemptStep : ApiOutcome → Except JSError String
  | .failure e => .error e
  | .response r =>
    match (firstInlinePart r).bind RespPart.inlineData with
    | some d => .ok (mkDataUrl d)
    | none => .error (.errorObj
        ("The AI model responded with text instead of an image: \"" ++
         textFallback r.text ++ "\""))

/-- The user-facing messages that differ between the two wrappers. -/
structure RetryMessages where
  detailsPre : String
  unknown : String
  exhausted : String
  deriving Repr, DecidableEq

/-- Shared message for a retryable error on the final attempt. -/
def unavailableMsg : String :=
  "The AI service is temporarily unavailable. Please try again in a few moments."

/-- `generateCharacterImage`'s wrapper messages. -/
def charMsgs : RetryMessages :=
  ⟨"The AI model failed to generate an image. Details: ",
   "An unknown error occurred while generating the image.",
   "The AI model failed to generate an image after all retries."⟩

/-- `generateSceneImage`'s wrapper messages. -/
def sceneMsgs : RetryMessages :=
  ⟨"The AI model failed to generate a scene image. Details: ",
   "An unknown error occurred while generating the scene image.",
   "The AI model failed to generate a scene image after all retries."⟩

/-- `const maxRetries = 3`. -/
def maxRetries : Nat := 3

/-- `const initialDelay = 2000`. -/
def initialDelay : Nat := 2000

/-- The terminal branch of the catch block (no retry is performed):
a retryable error that exhausted the attempts maps to the unavailable
message, an `Error` is wrapped with the details message, anything else
becomes the unknown-error message. -/
def terminalError (m : RetryMessages) (e : JSError) : String :=
  if isRetryableError (errorMessageOf e) then unavailableMsg
  else
    match e with
    | .errorObj msg => m.detailsPre ++ msg
    | .other _ => m.unknown

/-- Observable events of one wrapper call: an API call numbered by its
attempt, or a backoff sleep of the given milliseconds. -/
inductive Event where
  | apiCall (attempt : Nat)
  | delay (ms : Nat)
  deriving Repr, DecidableEq

/-- The retry loop of both wrappers, returning the event trace and the
final outcome. `fuel` is the number of loop iterations left
(`maxRetries - attempt + 1`); falling out of the loop produces the
unreachable-exhaustion error of the source's last line. -/
def retryRun (m : RetryMessages) (oracle : Nat → ApiOutcome) :
    Nat → Nat → List Event × Except String String
  | _, 0 => ([], .error m.exhausted)
  | attempt, fuel + 1 =>
    match attemptStep (oracle attempt) with
    | .ok url => ([.apiCall attempt], .ok url)
    | .error e =>
      if isRetryableError (errorMessageOf e) = true ∧ attempt < maxRetries then
        let rest := retryRun m oracle (attempt + 1) fuel
        (.apiCall attempt :: .delay (initialDelay * 2 ^ (attempt - 1)) :: rest.1, rest.2)
      else
        ([.apiCall attempt], .error (terminalError m e))

/-- `generateCharacterImage`: parse the input data URLs (throwing before
any API call on a malformed one), then run the three-attempt retry loop. -/
def generateCharacterImage (imageDataUrls : List String) (oracle : Nat → ApiOutcome) :
    List Event × Except String String :=
  match imagePartsOf charInvalidMsg imageDataUrls with
  | .error msg => ([], .error msg)
  | .ok _ => retryRun charMsgs oracle 1 maxRetries

/-- `generateSceneImage`: parse the character image data URLs (throwing
before any API call on a malformed one), then run the same three-attempt
retry loop with the scene-specific messages. The 16:9 gray placeholder
image the source appends to the request parts is generated from a canvas
and always parses; it only changes the request content, which the oracle
abstracts, so it is not tracked here. -/
def generateSceneImage (characterImageUrls : List String) (oracle : Nat → ApiOutcome) :
    List Event × Except String String :=
  match imagePartsOf sceneInvalidMsg characterImageUrls with
  | .error msg => ([], .error msg)
  | .ok _ => retryRun sceneMsgs oracle 1 maxRetries

/-- The six fixed pose labels of the application. -/
def POSES : List String :=
  ["Front View", "Side View", "Back View", "Action Pose",
   "Happy Expression", "Angry Expression"]

/-- `const MAX_FILE_SIZE_MB = 4`. -/
def MAX_FILE_SIZE_MB : Nat := 4

/-- `MAX_FILE_SIZE_MB * 1024 * 1024`. -/
def MAX_FILE_SIZE_BYTES : Nat := MAX_FILE_SIZE_MB * 1024 * 1024

/-- The per-pose image record of the `App` component: a status string
(`pending`, `done` or `error`) with optional url and error text. -/
structure GeneratedImage where
  status : String
  url : Option String := none
  error : Option String := none
  deriving Repr, DecidableEq

/-- The `generatedImages` record, as an insertion-ordered key/value list
(JavaScript object entries). -/
abbrev ImagesMap := List (String × GeneratedImage)

/-- The JavaScript object update `{...prev, [k]: v}`: if `k` is already a
key its value is replaced in place, otherwise the pair is appended. -/
def upsert (m : ImagesMap) (k : String) (v : GeneratedImage) : ImagesMap :=
  if m.any (fun e => e.1 == k) then
    m.map (fun e => if e.1 == k then (k, v) else e)
  else m ++ [(k, v)]

/-- JavaScript truthiness of the optional `url` field: present and
non-empty. -/
def urlTruthy : Option String → Bool
  | some u => !(u == "")
  | none => false

/-- The completed-image extraction shared by `createCharacterSheet` and
`handleDownloadSheet`: keep the entries whose status is `done` with a
truthy url, in entry order, paired with their urls. -/
def completedImages (imageData : ImagesMap) : List (String × String) :=
  (imageData.filter (fun e => e.2.status == "done" && urlTruthy e.2.url)).map
    (fun e => (e.1, e.2.url.getD ""))

/-- The compositor's grid constants `{ cols: 3, rows: 2, padding: 100 }`. -/
structure GridSpec where
  cols : Nat
  rows : Nat
  padding : Nat
  deriving Repr, DecidableEq

/-- The grid used by `createCharacterSheet`. -/
def sheetGridSpec : GridSpec := ⟨3, 2, 100⟩

/-- Observable output of one `createCharacterSheet` run: the canvas
dimensions, the per-image draw cells `(pose, url, column, row)` in draw
order, and the arguments `onComplete` was called with. -/
structure SheetRun where
  canvasWidth : Nat
  canvasHeight : Nat
  draws : List (String × String × Nat × Nat)
  onCompleteArgs : List String
  deriving Repr, DecidableEq

/-- `createCharacterSheet`: a single 3508 x 2480 canvas; the completed
images are drawn one per grid cell, image `index` in row
`index / grid.cols` and column `index % grid.cols`; the canvas is
exported once through the abstract encoder (`canvas.toDataURL` with
format `image/jpeg`) and the resulting data URL is passed to
`onComplete`. -/
def createCharacterSheet (imageData : ImagesMap)
    (toDataURL : String → Nat → Nat → List (String × String × Nat × Nat) → String) :
    SheetRun :=
  let canvasWidth := 3508
  let canvasHeight := 2480
  let completed := completedImages imageData
  let grid := sheetGridSpec
  let draws := completed.enum.map (fun e =>
    let index := e.1
    let row := index / grid.cols
    let col := index % grid.cols
    (e.2.1, e.2.2, col, row))
  let sheetUrl := toDataURL "image/jpeg" canvasWidth canvasHeight draws
  ⟨canvasWidth, canvasHeight, draws, [sheetUrl]⟩

/-- The `App` component's state hooks that the modelled handlers read or
write. -/
structure AppModel where
  uploadedImage : Option String := none
  generatedImages : ImagesMap := []
  isDownloading : Bool := false
  appState : String := "idle"
  selectedStyle : Option String := none
  selectedDetailedStyle : Option String := none
  baseModelImage : Option String := none
  scenePrompt : String := ""
  generatedScene : Option (String × String) := none
  deriving Repr, DecidableEq

/-- A file offered to `handleImageUpload`: its byte size and the data URL
the `FileReader` would produce for it. -/
structure UploadFile where
  size : Nat
  dataUrl : String
  deriving Repr, DecidableEq

/-- Observable output of one `handleImageUpload` call: the new state, the
alerts shown, and whether the file input was reset. -/
structure UploadRun where
  state : AppModel
  alerts : List String
  inputReset : Bool
  deriving Repr, DecidableEq

/-- `handleImageUpload`: with no file selected nothing happens; a file
over the size limit only alerts and resets the input; otherwise the
reader's data URL becomes `uploadedImage`, the app moves to style
selection and the previous generation state is cleared. -/
def handleImageUpload (s : AppModel) (files : List UploadFile) : UploadRun :=
  match files with
  | [] => ⟨s, [], false⟩
  | file :: _ =>
    if file.size > MAX_FILE_SIZE_BYTES then
      ⟨s,
       ["File is too large. Please upload an image smaller than " ++
        toString MAX_FILE_SIZE_MB ++ "MB."],
       true⟩
    else
      ⟨{ s with uploadedImage := some file.dataUrl,
                appState := "style-selection",
                generatedImages := [],
                baseModelImage := none,
                selectedStyle := none,
                selectedDetailedStyle := none },
       [], false⟩

/-- The image record `{ status: 'pending' }`. -/
def pendingImage : GeneratedImage := ⟨"pending", none, none⟩

/-- The map `{[POSES[0]]: { status: 'pending' }}` that `generateBaseModel`
installs before awaiting the API. -/
def baseModelPendingImages : ImagesMap := [(POSES.headD "", pendingImage)]

/-- `generateBaseModel` with the outcome of its single
`generateCharacterImage` call abstracted: a guard failure leaves the
state alone; success installs the fresh one-entry done map and the base
model image; failure installs the fresh one-entry error map. Both
outcomes move to the approval screen. -/
def generateBaseModel (s : AppModel) (result : Except String String) : AppModel :=
  if s.uploadedImage.isNone || s.selectedStyle.isNone || s.selectedDetailedStyle.isNone then s
  else
    match result with
    | .ok url =>
      { s with generatedImages := [(POSES.headD "", ⟨"done", some url, none⟩)],
               baseModelImage := some url,
               appState := "approval" }
    | .error msg =>
      { s with generatedImages := [(POSES.headD "", ⟨"error", none, some msg⟩)],
               appState := "approval" }

/-- One `processPose` call: the abstract per-pose generation outcome is
written into the map (`done` with the url, or `error` with the message);
the second component reports whether it succeeded. -/
def processPose (genResult : String → Except String String) (images : ImagesMap)
    (pose : String) : ImagesMap × Bool :=
  match genResult pose with
  | .ok url => (upsert images pose ⟨"done", some url, none⟩, true)
  | .error msg => (upsert images pose ⟨"error", none, some msg⟩, false)

/-- Events of the sheet-generation loop: a pose request starting, a pose
request settling (successfully or not), and the fixed inter-request
sleep. -/
inductive PoseEvent where
  | requestStart (pose : String)
  | requestEnd (pose : String) (ok : Bool)
  | wait (ms : Nat)
  deriving Repr, DecidableEq

/-- Whether an `Except` outcome is a success. -/
def isOkE : Except String String → Bool
  | .ok _ => true
  | .error _ => false

/-- The `for (const pose of remainingPoses)` loop: each pose is processed
to completion, then the loop sleeps 1000 ms, then the next pose starts. -/
def sheetLoop (genResult : String → Except String String) :
    List String → ImagesMap → ImagesMap × List PoseEvent
  | [], images => (images, [])
  | pose :: rest, images =>
    let pr := processPose genResult images pose
    let tail := sheetLoop genResult rest pr.1
    (tail.1,
     PoseEvent.requestStart pose :: PoseEvent.requestEnd pose pr.2 ::
       PoseEvent.wait 1000 :: tail.2)

/-- `handleApproveAndGenerateSheet`: guarded on the four required pieces
of state; marks the five remaining poses pending, runs the sequential
per-pose loop, and lands on the results screen. Returns the new state
and the loop's event trace. -/
def handleApproveAndGenerateSheet (s : AppModel)
    (genResult : String → Except String String) : AppModel × List PoseEvent :=
  if s.uploadedImage.isNone || s.baseModelImage.isNone ||
      s.selectedStyle.isNone || s.selectedDetailedStyle.isNone then (s, [])
  else
    let remainingPoses := POSES.drop 1
    let initialImages :=
      remainingPoses.foldl (fun m pose => upsert m pose pendingImage) s.generatedImages
    let run := sheetLoop genResult remainingPoses initialImages
    ({ s with appState := "results-shown", generatedImages := run.1 }, run.2)

/-- `handleCharacterEdited`: in the scene context only the generated
scene's url is replaced; in the character context the edited url becomes
the base model image and replaces the front-view entry of the map. -/
def handleCharacterEdited (s : AppModel) (editingContext : String)
    (editedImageUrl : String) : AppModel :=
  if editingContext == "scene" then
    { s with generatedScene := s.generatedScene.map (fun sc => (editedImageUrl, sc.2)) }
  else
    { s with baseModelImage := some editedImageUrl,
             generatedImages :=
               upsert s.generatedImages (POSES.headD "") ⟨"done", some editedImageUrl, none⟩ }

/-- `handleReset`: back to the initial state (the style-example cache is
kept, which the model does not track). -/
def handleReset (s : AppModel) : AppModel :=
  { s with uploadedImage := none,
           generatedImages := [],
           appState := "idle",
           baseModelImage := none,
           selectedStyle := none,
           selectedDetailedStyle := none,
           scenePrompt := "",
           generatedScene := none }

/-- Whether pose `p` has a completed image in `m` (an entry with status
`done` and a truthy url). -/
def poseCompletedB (m : ImagesMap) (p : String) : Bool :=
  m.any (fun e => e.1 == p && (e.2.status == "done" && urlTruthy e.2.url))

/-- All six poses have a completed image. -/
def allPosesCompleted (m : ImagesMap) : Prop :=
  ∀ p ∈ POSES, poseCompletedB m p = true

/-- The alert `handleDownloadSheet` shows when images are missing. -/
def alertAllImages : String :=
  "Please wait for all images to finish generating before downloading the sheet."

/-- Observable output of one `handleDownloadSheet` call: the new state,
the alerts shown, whether `createCharacterSheet` ran, and the data URLs
handed to the download link. -/
structure DownloadRun where
  state : AppModel
  alerts : List String
  sheetCreated : Bool
  downloads : List String
  deriving Repr, DecidableEq

/-- `handleDownloadSheet`: collect the completed entries into an object
(distinct keys); with fewer keys than poses, alert and return without
compositing; otherwise composite the sheet and download the resulting
data URL. `isDownloading` ends false either way (the `finally`). -/
def handleDownloadSheet (s : AppModel)
    (toDataURL : String → Nat → Nat → List (String × String × Nat × Nat) → String) :
    DownloadRun :=
  let imageDataKeys := ((completedImages s.generatedImages).map Prod.fst).dedup
  if imageDataKeys.length < POSES.length then
    ⟨{ s with isDownloading := false }, [alertAllImages], false, []⟩
  else
    let sheet := createCharacterSheet s.generatedImages toDataURL
    ⟨{ s with isDownloading := false }, [], true, sheet.onCompleteArgs⟩

/-- The map invariant of the specification: each pose key appears at most
once, and every key is one of the six pose labels. -/
def validImages (m : ImagesMap) : Prop :=
  (m.map Prod.fst).Nodup ∧ ∀ k ∈ m.map Prod.fst, k ∈ POSES

instance (m : ImagesMap) : Decidable (allPosesCompleted m) := by
  unfold allPosesCompleted; infer_instance

instance (m : ImagesMap) : Decidable (validImages m) := by
  unfold validImages; infer_instance

/-- The spec-level notion of one string occurring inside another, stated
independently of the scanning function. -/
def OccursIn (pat s : String) : Prop :=
  ∃ pre post, s.toList = pre ++ pat.toList ++ post

lemma leadsWith_iff : ∀ (p l : List Char), leadsWith p l = true ↔ ∃ t, l = p ++ t
  | [], l => by simp [leadsWith]
  | _ :: _, [] => by simp [leadsWith]
  | a :: ps, c :: cs => by
    simp only [leadsWith, Bool.and_eq_true, beq_iff_eq, leadsWith_iff ps cs,
      List.cons_append, List.cons.injEq]
    constructor
    · rintro ⟨rfl, t, rfl⟩
      exact ⟨t, rfl, rfl⟩
    · rintro ⟨t, rfl, rfl⟩
      exact ⟨rfl, t, rfl⟩

lemma hasSub_iff (p : List Char) :
    ∀ l, hasSub p l = true ↔ ∃ pre post, l = pre ++ p ++ post
  | [] => by
    simp only [hasSub, List.isEmpty_iff]
    constructor
    · rintro rfl
      exact ⟨[], [], rfl⟩
    · rintro ⟨pre, post, h⟩
      cases pre <;> simp_all
  | c :: cs => by
    simp only [hasSub, Bool.or_eq_true, leadsWith_iff, hasSub_iff p cs]
    constructor
    · rintro (⟨t, ht⟩ | ⟨pre, post, hp⟩)
      · exact ⟨[], t, by simpa using ht⟩
      · exact ⟨c :: pre, post, by simp [hp]⟩
    · rintro ⟨pre, post, h⟩
      cases pre with
      | nil => exact Or.inl ⟨post, by simpa using h⟩
      | cons x xs =>
        obtain ⟨rfl, h2⟩ := List.cons.injEq .. ▸ h
        exact Or.inr ⟨xs, post, by simpa using h2⟩

/-- The scanner agrees with the spec-level occurrence relation. -/
lemma containsSubstr_iff (s pat : String) :
    containsSubstr s pat = true ↔ OccursIn pat s := by
  simpa [containsSubstr, OccursIn] using hasSub_iff pat.toList s.toList

/-- Events that are API calls. -/
def isApiCall : Event → Bool
  | .apiCall _ => true
  | .delay _ => false

/-- Number of API calls in a trace. -/
def apiCallCount (tr : List Event) : Nat := (tr.filter isApiCall).length

/-- The outcome of an attempt is a caught error that the source
classifies retryable. -/
def failsRetryably (o : ApiOutcome) : Prop :=
  ∃ e, attemptStep o = .error e ∧ isRetryableError (errorMessageOf e) = true

lemma retryRun_succ (m : RetryMessages) (o : Nat → ApiOutcome) (attempt fuel : Nat) :
    retryRun m o attempt (fuel + 1) =
      match attemptStep (o attempt) with
      | .ok url => ([.apiCall attempt], .ok url)
      | .error e =>
        if isRetryableError (errorMessageOf e) = true ∧ attempt < maxRetries then
          let rest := retryRun m o (attempt + 1) fuel
          (.apiCall attempt :: .delay (initialDelay * 2 ^ (attempt - 1)) :: rest.1, rest.2)
        else
          ([.apiCall attempt], .error (terminalError m e)) := rfl

lemma retryRun_ok (m : RetryMessages) (o : Nat → ApiOutcome) (a fuel : Nat) (u : String)
    (h : attemptStep (o a) = .ok u) :
    retryRun m o a (fuel + 1) = ([.apiCall a], .ok u) := by
  simp [retryRun_succ, h]

lemma retryRun_stop (m : RetryMessages) (o : Nat → ApiOutcome) (a fuel : Nat) (e : JSError)
    (h : attemptStep (o a) = .error e)
    (hc : ¬(isRetryableError (errorMessageOf e) = true ∧ a < maxRetries)) :
    retryRun m o a (fuel + 1) = ([.apiCall a], .error (terminalError m e)) := by
  simp only [retryRun_succ, h]
  rw [if_neg hc]

lemma retryRun_retry (m : RetryMessages) (o : Nat → ApiOutcome) (a fuel : Nat) (e : JSError)
    (h : attemptStep (o a) = .error e)
    (hr : isRetryableError (errorMessageOf e) = true) (ha : a < maxRetries) :
    retryRun m o a (fuel + 1) =
      (.apiCall a :: .delay (initialDelay * 2 ^ (a - 1)) :: (retryRun m o (a + 1) fuel).1,
       (retryRun m o (a + 1) fuel).2) := by
  simp only [retryRun_succ, h]
  rw [if_pos ⟨hr, ha⟩]

/-- Exhaustive case analysis of a full three-attempt run: the five
possible shapes of its trace and result. -/
lemma retryRun_shape (m : RetryMessages) (o : Nat → ApiOutcome) :
    (∃ u, attemptStep (o 1) = .ok u ∧
        retryRun m o 1 maxRetries = ([.apiCall 1], .ok u)) ∨
    (∃ e, attemptStep (o 1) = .error e ∧ isRetryableError (errorMessageOf e) = false ∧
        retryRun m o 1 maxRetries = ([.apiCall 1], .error (terminalError m e))) ∨
    (∃ e1, attemptStep (o 1) = .error e1 ∧ isRetryableError (errorMessageOf e1) = true ∧
      ((∃ u, attemptStep (o 2) = .ok u ∧
          retryRun m o 1 maxRetries =
            ([.apiCall 1, .delay 2000, .apiCall 2], .ok u)) ∨
       (∃ e2, attemptStep (o 2) = .error e2 ∧
          isRetryableError (errorMessageOf e2) = false ∧
          retryRun m o 1 maxRetries =
            ([.apiCall 1, .delay 2000, .apiCall 2], .error (terminalError m e2))) ∨
       (∃ e2, attemptStep (o 2) = .error e2 ∧
          isRetryableError (errorMessageOf e2) = true ∧
         ((∃ u, attemptStep (o 3) = .ok u ∧
             retryRun m o 1 maxRetries =
               ([.apiCall 1, .delay 2000, .apiCall 2, .delay 4000, .apiCall 3], .ok u)) ∨
          (∃ e3, attemptStep (o 3) = .error e3 ∧
             retryRun m o 1 maxRetries =
               ([.apiCall 1, .delay 2000, .apiCall 2, .delay 4000, .apiCall 3],
                .error (terminalError m e3))))))) := by
  have d1 : initialDelay * 2 ^ (1 - 1) = 2000 := by norm_num [initialDelay]
  have d2 : initialDelay * 2 ^ (2 - 1) = 4000 := by norm_num [initialDelay]
  cases ha1 : attemptStep (o 1) with
  | ok u1 =>
    exact Or.inl ⟨u1, rfl, retryRun_ok m o 1 2 u1 ha1⟩
  | error e1 =>
    by_cases hr1 : isRetryableError (errorMessageOf e1) = true
    · refine Or.inr (Or.inr ⟨e1, rfl, hr1, ?_⟩)
      have h1 := retryRun_retry m o 1 2 e1 ha1 hr1 (by norm_num [maxRetries])
      rw [d1] at h1
      cases ha2 : attemptStep (o 2) with
      | ok u2 =>
        refine Or.inl ⟨u2, rfl, ?_⟩
        have h2 := retryRun_ok m o 2 1 u2 ha2
        show retryRun m o 1 (2 + 1) = _
        rw [h1, h2]
      | error e2 =>
        by_cases hr2 : isRetryableError (errorMessageOf e2) = true
        · refine Or.inr (Or.inr ⟨e2, rfl, hr2, ?_⟩)
          have h2 := retryRun_retry m o 2 1 e2 ha2 hr2 (by norm_num [maxRetries])
          rw [d2] at h2
          cases ha3 : attemptStep (o 3) with
          | ok u3 =>
            refine Or.inl ⟨u3, rfl, ?_⟩
            have h3 := retryRun_ok m o 3 0 u3 ha3
            show retryRun m o 1 (2 + 1) = _
            rw [h1, h2, h3]
          | error e3 =>
            refine Or.inr ⟨e3, rfl, ?_⟩
            have h3 := retryRun_stop m o 3 0 e3 ha3
              (by rintro ⟨_, hlt⟩; norm_num [maxRetries] at hlt)
            show retryRun m o 1 (2 + 1) = _
            rw [h1, h2, h3]
        · refine Or.inr (Or.inl ⟨e2, rfl, by simpa using hr2, ?_⟩)
          have h2 := retryRun_stop m o 2 1 e2 ha2 (fun hc => hr2 hc.1)
          show retryRun m o 1 (2 + 1) = _
          rw [h1, h2]
    · exact Or.inr (Or.inl ⟨e1, rfl, by simpa using hr1,
        retryRun_stop m o 1 2 e1 ha1 (fun hc => hr1 hc.1)⟩)

/-- The properties claim C1 states about one wrapper run with oracle `o`:
at most three API calls; after a failed retryable attempt `k < 3` the
trace continues with a sleep of `2000 * 2 ^ (k - 1)` milliseconds and
then attempt `k + 1`; and once a third attempt has failed, no further
call appears and the run ends in an error. -/
def retryProps (run : List Event × Except String String) (o : Nat → ApiOutcome) : Prop :=
  apiCallCount run.1 ≤ 3 ∧
  (∀ k, 1 ≤ k → k < 3 → Event.apiCall k ∈ run.1 → failsRetryably (o k) →
    ∃ pre post, run.1 =
      pre ++ Event.apiCall k :: Event.delay (2000 * 2 ^ (k - 1)) ::
        Event.apiCall (k + 1) :: post) ∧
  (Event.apiCall 3 ∈ run.1 → (∃ e, attemptStep (o 3) = .error e) →
    (∀ j, 3 < j → Event.apiCall j ∉ run.1) ∧ ∃ msg, run.2 = .error msg)

lemma retryProps_nil (o : Nat → ApiOutcome) (res : Except String String) :
    retryProps (([], res)) o := by
  refine ⟨by norm_num [apiCallCount, isApiCall], ?_, ?_⟩
  · intro k _ _ hmem _
    simp at hmem
  · intro hmem
    simp at hmem

lemma retryProps_retryRun (m : RetryMessages) (o : Nat → ApiOutcome) :
    retryProps (retryRun m o 1 maxRetries) o := by
  rcases retryRun_shape m o with ⟨u, h1, hrun⟩ | ⟨e, h1, hr, hrun⟩ |
    ⟨e1, h1, hr1, ⟨u, h2, hrun⟩ | ⟨e2, h2, hr2, hrun⟩ |
      ⟨e2, h2, hr2, ⟨u, h3, hrun⟩ | ⟨e3, h3, hrun⟩⟩⟩ <;> rw [hrun]
  · refine ⟨by norm_num [apiCallCount, isApiCall], ?_, ?_⟩
    · intro k _ _ hmem hfail
      simp at hmem
      subst hmem
      obtain ⟨e, he, _⟩ := hfail
      rw [h1] at he
      cases he
    · intro hmem
      simp at hmem
  · refine ⟨by norm_num [apiCallCount, isApiCall], ?_, ?_⟩
    · intro k _ _ hmem hfail
      simp at hmem
      subst hmem
      obtain ⟨e', he, hre⟩ := hfail
      rw [h1] at he
      cases he
      rw [hre] at hr
      cases hr
    · intro hmem
      simp at hmem
  · refine ⟨by norm_num [apiCallCount, isApiCall], ?_, ?_⟩
    · intro k _ _ hmem hfail
      simp at hmem
      rcases hmem with rfl | rfl
      · exact ⟨[], [], by norm_num⟩
      · obtain ⟨e', he, _⟩ := hfail
        rw [h2] at he
        cases he
    · intro hmem
      simp at hmem
  · refine ⟨by norm_num [apiCallCount, isApiCall], ?_, ?_⟩
    · intro k _ _ hmem hfail
      simp at hmem
      rcases hmem with rfl | rfl
      · exact ⟨[], [], by norm_num⟩
      · obtain ⟨e', he, hre⟩ := hfail
        rw [h2] at he
        cases he
        rw [hre] at hr2
        cases hr2
    · intro hmem
      simp at hmem
  · refine ⟨by norm_num [apiCallCount, isApiCall], ?_, ?_⟩
    · intro k _ _ hmem hfail
      simp at hmem
      rcases hmem with rfl | rfl | rfl
      · exact ⟨[], [Event.delay 4000, Event.apiCall 3], by norm_num⟩
      · exact ⟨[Event.apiCall 1, Event.delay 2000], [], by norm_num⟩
      · omega
    · intro _ hfail
      obtain ⟨e', he⟩ := hfail
      rw [h3] at he
      cases he
  · refine ⟨by norm_num [apiCallCount, isApiCall], ?_, ?_⟩
    · intro k _ _ hmem hfail
      simp at hmem
      rcases hmem with rfl | rfl | rfl
      · exact ⟨[], [Event.delay 4000, Event.apiCall 3], by norm_num⟩
      · exact ⟨[Event.apiCall 1, Event.delay 2000], [], by norm_num⟩
      · omega
    · intro _ _
      refine ⟨?_, terminalError m e3, rfl⟩
      intro j hj hmem
      simp at hmem
      omega

/-- C1: for every input, both wrappers attempt the external API call at
most three times; after a failed attempt `k < 3` whose error is
classified retryable, the next attempt is preceded by a delay of
`2000 * 2 ^ (k - 1)` milliseconds; after the third failed attempt no
further API call is made and the function ends in an error. -/
theorem c1_retry_bounded_backoff (charUrls sceneUrls : List String)
    (oc os : Nat → ApiOutcome) :
    retryProps (generateCharacterImage charUrls oc) oc ∧
    retryProps (generateSceneImage sceneUrls os) os := by
  constructor
  · unfold generateCharacterImage
    cases imagePartsOf charInvalidMsg charUrls with
    | error msg => exact retryProps_nil oc (.error msg)
    | ok ps => exact retryProps_retryRun charMsgs oc
  · unfold generateSceneImage
    cases imagePartsOf sceneInvalidMsg sceneUrls with
    | error msg => exact retryProps_nil os (.error msg)
    | ok ps => exact retryProps_retryRun sceneMsgs os

/-- Concrete response with an inline image part, used by the witnesses. -/
def okResponseW : GenResponse :=
  { candidates :=
      some [{ content := some { parts := some [{ inlineData := some ⟨"image/png", "QUJD"⟩ }] } }] }

/-- Witness oracle: the first attempt fails with a retryable error, the
second succeeds. -/
def oracleW : Nat → ApiOutcome :=
  fun k => if k == 1 then .failure (.errorObj "INTERNAL") else .response okResponseW

theorem c1_retry_bounded_backoff_witness :
    apiCallCount (generateCharacterImage [] oracleW).1 ≤ 3 ∧
    ∃ pre post, (generateCharacterImage [] oracleW).1 =
      pre ++ Event.apiCall 1 :: Event.delay (2000 * 2 ^ (1 - 1)) ::
        Event.apiCall 2 :: post := by
  have h := c1_retry_bounded_backoff [] [] oracleW oracleW
  refine ⟨h.1.1, h.1.2.1 1 (by decide) (by decide) (by decide) ?_⟩
  exact ⟨.errorObj "INTERNAL", rfl, by decide⟩

lemma retryRun_terminal_first (m : RetryMessages) (o : Nat → ApiOutcome) (e : JSError)
    (hstep : attemptStep (o 1) = .error e)
    (hr : isRetryableError (errorMessageOf e) = false) :
    retryRun m o 1 maxRetries = ([.apiCall 1], .error (terminalError m e)) :=
  retryRun_stop m o 1 2 e hstep (by rintro ⟨h1, _⟩; rw [hr] at h1; cases h1)

lemma terminalError_not_retryable (m : RetryMessages) (e : JSError)
    (hr : isRetryableError (errorMessageOf e) = false) :
    terminalError m e =
      match e with
      | .errorObj msg => m.detailsPre ++ msg
      | .other _ => m.unknown := by
  cases e with
  | errorObj msg =>
    simp only [errorMessageOf] at hr
    simp [terminalError, errorMessageOf, hr]
  | other j =>
    simp only [errorMessageOf] at hr
    simp [terminalError, errorMessageOf, hr]

/-- C2: an error caught during image generation is classified retryable
exactly when its message text (the `message` of an `Error`, otherwise the
JSON serialization) contains one of the five substrings; an error whose
message contains none of them is terminal: it is rethrown wrapped in the
user-facing details (or unknown-error) message after a single API call,
with no retry. -/
theorem c2_error_classification :
    (∀ msg : String, isRetryableError msg = true ↔
      (OccursIn "\"code\":500" msg ∨ OccursIn "INTERNAL" msg ∨
       OccursIn "\"code\":429" msg ∨ OccursIn "RESOURCE_EXHAUSTED" msg ∨
       OccursIn "xhr error" msg)) ∧
    (∀ (urls : List String) (o : Nat → ApiOutcome) (e : JSError) (ps : List InlineData),
      imagePartsOf charInvalidMsg urls = .ok ps →
      attemptStep (o 1) = .error e →
      ¬(OccursIn "\"code\":500" (errorMessageOf e) ∨
        OccursIn "INTERNAL" (errorMessageOf e) ∨
        OccursIn "\"code\":429" (errorMessageOf e) ∨
        OccursIn "RESOURCE_EXHAUSTED" (errorMessageOf e) ∨
        OccursIn "xhr error" (errorMessageOf e)) →
      generateCharacterImage urls o =
        ([Event.apiCall 1], .error
          (match e with
           | .errorObj msg => "The AI model failed to generate an image. Details: " ++ msg
           | .other _ => "An unknown error occurred while generating the image."))) ∧
    (∀ (urls : List String) (o : Nat → ApiOutcome) (e : JSError) (ps : List InlineData),
      imagePartsOf sceneInvalidMsg urls = .ok ps →
      attemptStep (o 1) = .error e →
      ¬(OccursIn "\"code\":500" (errorMessageOf e) ∨
        OccursIn "INTERNAL" (errorMessageOf e) ∨
        OccursIn "\"code\":429" (errorMessageOf e) ∨
        OccursIn "RESOURCE_EXHAUSTED" (errorMessageOf e) ∨
        OccursIn "xhr error" (errorMessageOf e)) →
      generateSceneImage urls o =
        ([Event.apiCall 1], .error
          (match e with
           | .errorObj msg => "The AI model failed to generate a scene image. Details: " ++ msg
           | .other _ => "An unknown error occurred while generating the scene image."))) := by
  have hiff : ∀ msg : String, isRetryableError msg = true ↔
      (OccursIn "\"code\":500" msg ∨ OccursIn "INTERNAL" msg ∨
       OccursIn "\"code\":429" msg ∨ OccursIn "RESOURCE_EXHAUSTED" msg ∨
       OccursIn "xhr error" msg) := by
    intro msg
    simp [isRetryableError, containsSubstr_iff, or_assoc]
  refine ⟨hiff, ?_, ?_⟩
  · intro urls o e ps hok hstep hno
    have hr : isRetryableError (errorMessageOf e) = false := by
      cases hb : isRetryableError (errorMessageOf e)
      · rfl
      · exact absurd ((hiff _).mp hb) hno
    have hrun : generateCharacterImage urls o = retryRun charMsgs o 1 maxRetries := by
      unfold generateCharacterImage
      rw [hok]
    rw [hrun, retryRun_terminal_first charMsgs o e hstep hr,
      terminalError_not_retryable charMsgs e hr]
    cases e <;> simp [charMsgs]
  · intro urls o e ps hok hstep hno
    have hr : isRetryableError (errorMessageOf e) = false := by
      cases hb : isRetryableError (errorMessageOf e)
      · rfl
      · exact absurd ((hiff _).mp hb) hno
    have hrun : generateSceneImage urls o = retryRun sceneMsgs o 1 maxRetries := by
      unfold generateSceneImage
      rw [hok]
    rw [hrun, retryRun_terminal_first sceneMsgs o e hstep hr,
      terminalError_not_retryable sceneMsgs e hr]
    cases e <;> simp [sceneMsgs]

theorem c2_error_classification_witness :
    isRetryableError "INTERNAL glitch" = true ∧
    generateCharacterImage [] (fun _ => ApiOutcome.failure (.errorObj "boom")) =
      ([Event.apiCall 1],
       .error ("The AI model failed to generate an image. Details: " ++ "boom")) := by
  have h := c2_error_classification
  constructor
  · exact (h.1 "INTERNAL glitch").mpr (Or.inr (Or.inl ⟨[], " glitch".toList, rfl⟩))
  · refine h.2.1 [] (fun _ => ApiOutcome.failure (.errorObj "boom")) (.errorObj "boom") []
      rfl rfl ?_
    intro hocc
    have hb : isRetryableError (errorMessageOf (JSError.errorObj "boom")) = true :=
      (h.1 _).mpr hocc
    exact absurd hb (by decide)

lemma imagePartsOf_error (msg : String) :
    ∀ (urls : List String) (u : String), u ∈ urls → parseDataUrl u = none →
      imagePartsOf msg urls = .error msg
  | [], u => by simp
  | v :: vs, u => by
    intro hu hbad
    rcases List.mem_cons.mp hu with rfl | hmem
    · simp [imagePartsOf, hbad]
    · cases hv : parseDataUrl v with
      | none => simp [imagePartsOf, hv]
      | some md =>
        simp [imagePartsOf, hv, imagePartsOf_error msg vs u hmem hbad, Except.map]

/-- C8: an input array containing an element the data-URL regex rejects
makes both wrappers throw the invalid-format error during argument
processing: the trace is empty, so no API call is made and the retry loop
is never entered. -/
theorem c8_invalid_data_url (urls : List String) (o : Nat → ApiOutcome) (u : String)
    (hu : u ∈ urls) (hbad : parseDataUrl u = none) :
    generateCharacterImage urls o = ([], .error charInvalidMsg) ∧
    generateSceneImage urls o = ([], .error sceneInvalidMsg) := by
  constructor
  · unfold generateCharacterImage
    rw [imagePartsOf_error charInvalidMsg urls u hu hbad]
  · unfold generateSceneImage
    rw [imagePartsOf_error sceneInvalidMsg urls u hu hbad]

theorem c8_invalid_data_url_witness :
    generateCharacterImage ["nope"] oracleW = ([], .error charInvalidMsg) ∧
    generateSceneImage ["nope"] oracleW = ([], .error sceneInvalidMsg) :=
  c8_invalid_data_url ["nope"] oracleW "nope" (by simp) (by decide)

lemma firstCandidateParts_inv (r : GenResponse) (ps : List RespPart)
    (h : firstCandidateParts r = some ps) :
    ∃ c rest, r.candidates = some (c :: rest) ∧ candidateParts c = ps := by
  rcases r with ⟨cands, txt⟩
  cases cands with
  | none => simp [firstCandidateParts] at h
  | some cs =>
    cases cs with
    | nil => simp [firstCandidateParts] at h
    | cons c rest =>
      cases hct : c.content with
      | none => simp [firstCandidateParts, hct] at h
      | some ct =>
        refine ⟨c, rest, rfl, ?_⟩
        simp only [firstCandidateParts, hct] at h
        simp [candidateParts, hct, h]

lemma responseHasInlineImage_of_first (r : GenResponse) (d : InlineData)
    (h : (firstInlinePart r).bind RespPart.inlineData = some d) :
    responseHasInlineImage r = true := by
  unfold firstInlinePart at h
  obtain ⟨p, hp, hpd⟩ := Option.bind_eq_some.mp h
  obtain ⟨ps, hps, hf⟩ := Option.bind_eq_some.mp hp
  obtain ⟨c, rest, hcands, hcp⟩ := firstCandidateParts_inv r ps hps
  have hmem : p ∈ ps := List.mem_of_find?_eq_some hf
  have hpred := List.find?_some hf
  unfold responseHasInlineImage
  rw [hcands]
  simp only [Option.getD_some, List.any_eq_true]
  exact ⟨c, by simp, by rw [hcp]; exact ⟨p, hmem, hpred⟩⟩

lemma bind_none_of_no_inline (r : GenResponse)
    (h : responseHasInlineImage r = false) :
    (firstInlinePart r).bind RespPart.inlineData = none := by
  cases hb : (firstInlinePart r).bind RespPart.inlineData with
  | none => rfl
  | some d => rw [responseHasInlineImage_of_first r d hb] at h; cases h

/-- A response with no inline-image part anywhere makes the try block
throw the text-instead-of-image error. -/
lemma attemptStep_no_inline (r : GenResponse) (h : responseHasInlineImage r = false) :
    attemptStep (.response r) = .error (.errorObj
      ("The AI model responded with text instead of an image: \"" ++
       textFallback r.text ++ "\"")) := by
  simp [attemptStep, bind_none_of_no_inline r h]

lemma attemptStep_ok_inv (o : ApiOutcome) (u : String) (h : attemptStep o = .ok u) :
    ∃ r d, o = .response r ∧ (firstInlinePart r).bind RespPart.inlineData = some d ∧
      u = mkDataUrl d := by
  cases o with
  | failure e => simp [attemptStep] at h
  | response r =>
    cases hd : (firstInlinePart r).bind RespPart.inlineData with
    | none => simp [attemptStep, hd] at h
    | some d =>
      simp only [attemptStep, hd, Except.ok.injEq] at h
      exact ⟨r, d, rfl, hd, h.symm⟩

lemma retryRun_ok_inv (m : RetryMessages) (o : Nat → ApiOutcome) (v : String)
    (h : (retryRun m o 1 maxRetries).2 = .ok v) :
    ∃ k, attemptStep (o k) = .ok v := by
  rcases retryRun_shape m o with ⟨u, h1, hrun⟩ | ⟨e, h1, hre, hrun⟩ |
    ⟨e1, h1, hre1, ⟨u, h2, hrun⟩ | ⟨e2, h2, hre2, hrun⟩ |
      ⟨e2, h2, hre2, ⟨u, h3, hrun⟩ | ⟨e3, h3, hrun⟩⟩⟩ <;> rw [hrun] at h <;> simp at h
  · exact ⟨1, by rw [h1, h]⟩
  · exact ⟨2, by rw [h2, h]⟩
  · exact ⟨3, by rw [h3, h]⟩

/-- C4: a response containing no inline-image part never produces a
successful result — every successful value comes from a response with an
inline part, and is the data URL of its first inline part — and when the
third (last) attempt gets such a response, the wrapper ends in an error. -/
theorem c4_text_only_fallback :
    (∀ (urls : List String) (o : Nat → ApiOutcome) (v : String),
      (generateCharacterImage urls o).2 = .ok v →
      ∃ k r d, o k = .response r ∧ responseHasInlineImage r = true ∧
        (firstInlinePart r).bind RespPart.inlineData = some d ∧ v = mkDataUrl d) ∧
    (∀ (urls : List String) (o : Nat → ApiOutcome) (v : String),
      (generateSceneImage urls o).2 = .ok v →
      ∃ k r d, o k = .response r ∧ responseHasInlineImage r = true ∧
        (firstInlinePart r).bind RespPart.inlineData = some d ∧ v = mkDataUrl d) ∧
    (∀ (urls : List String) (o : Nat → ApiOutcome) (r : GenResponse) (ps : List InlineData),
      imagePartsOf charInvalidMsg urls = .ok ps →
      failsRetryably (o 1) → failsRetryably (o 2) →
      o 3 = .response r → responseHasInlineImage r = false →
      ∃ msg, (generateCharacterImage urls o).2 = .error msg) ∧
    (∀ (urls : List String) (o : Nat → ApiOutcome) (r : GenResponse) (ps : List InlineData),
      imagePartsOf sceneInvalidMsg urls = .ok ps →
      failsRetryably (o 1) → failsRetryably (o 2) →
      o 3 = .response r → responseHasInlineImage r = false →
      ∃ msg, (generateSceneImage urls o).2 = .error msg) := by
  have hsucc : ∀ (m : RetryMessages) (inv : String) (urls : List String)
      (o : Nat → ApiOutcome) (v : String),
      ((match imagePartsOf inv urls with
        | .error msg => (([] : List Event), Except.error msg)
        | .ok _ => retryRun m o 1 maxRetries) : List Event × Except String String).2 = .ok v →
      ∃ k r d, o k = .response r ∧ responseHasInlineImage r = true ∧
        (firstInlinePart r).bind RespPart.inlineData = some d ∧ v = mkDataUrl d := by
    intro m inv urls o v h
    cases hok : imagePartsOf inv urls with
    | error msg => rw [hok] at h; simp at h
    | ok qs =>
      rw [hok] at h
      obtain ⟨k, hk⟩ := retryRun_ok_inv m o v h
      obtain ⟨r, d, hor, hbind, hv⟩ := attemptStep_ok_inv (o k) v hk
      exact ⟨k, r, d, hor, responseHasInlineImage_of_first r d hbind, hbind, hv⟩
  have hlast : ∀ (m : RetryMessages) (o : Nat → ApiOutcome) (r : GenResponse),
      failsRetryably (o 1) → failsRetryably (o 2) →
      o 3 = .response r → responseHasInlineImage r = false →
      ∃ msg, (retryRun m o 1 maxRetries).2 = .error msg := by
    intro m o r h1 h2 hr3 hno
    obtain ⟨e1, he1, hre1⟩ := h1
    obtain ⟨e2, he2, hre2⟩ := h2
    have hstep3 : attemptStep (o 3) = .error (.errorObj
        ("The AI model responded with text instead of an image: \"" ++
         textFallback r.text ++ "\"")) := by
      rw [hr3]; exact attemptStep_no_inline r hno
    rcases retryRun_shape m o with ⟨u, h1', hrun⟩ | ⟨e, h1', hrf, hrun⟩ |
      ⟨e1', h1', hre1', ⟨u, h2', hrun⟩ | ⟨e2', h2', hrf2, hrun⟩ |
        ⟨e2', h2', hre2', ⟨u, h3', hrun⟩ | ⟨e3, h3', hrun⟩⟩⟩
    · rw [he1] at h1'; exact Except.noConfusion h1'
    · rw [he1] at h1'
      injection h1' with hee
      subst hee
      rw [hre1] at hrf
      cases hrf
    · rw [he2] at h2'; exact Except.noConfusion h2'
    · rw [he2] at h2'
      injection h2' with hee
      subst hee
      rw [hre2] at hrf2
      cases hrf2
    · rw [hstep3] at h3'; exact Except.noConfusion h3'
    · rw [hrun]
      exact ⟨terminalError m e3, rfl⟩
  refine ⟨fun urls o v h => hsucc charMsgs charInvalidMsg urls o v h,
          fun urls o v h => hsucc sceneMsgs sceneInvalidMsg urls o v h, ?_, ?_⟩
  · intro urls o r ps hok h1 h2 hr3 hno
    have hrun : generateCharacterImage urls o = retryRun charMsgs o 1 maxRetries := by
      unfold generateCharacterImage; rw [hok]
    rw [hrun]
    exact hlast charMsgs o r h1 h2 hr3 hno
  · intro urls o r ps hok h1 h2 hr3 hno
    have hrun : generateSceneImage urls o = retryRun sceneMsgs o 1 maxRetries := by
      unfold generateSceneImage; rw [hok]
    rw [hrun]
    exact hlast sceneMsgs o r h1 h2 hr3 hno

/-- Witness oracle for the last-attempt rejection: two retryable
failures, then a text-only response. -/
def oracleTextW : Nat → ApiOutcome :=
  fun k => if k < 3 then .failure (.errorObj "INTERNAL") else .response { text := some "hello" }

theorem c4_text_only_fallback_witness :
    (∃ k r d, oracleW k = .response r ∧ responseHasInlineImage r = true ∧
      (firstInlinePart r).bind RespPart.inlineData = some d ∧
      "data:image/png;base64,QUJD" = mkDataUrl d) ∧
    (∃ msg, (generateCharacterImage [] oracleTextW).2 = .error msg) := by
  have h := c4_text_only_fallback
  constructor
  · exact h.1 [] oracleW "data:image/png;base64,QUJD" rfl
  · refine h.2.2.1 [] oracleTextW { text := some "hello" } [] rfl ?_ ?_ rfl (by decide)
    · exact ⟨.errorObj "INTERNAL", rfl, by decide⟩
    · exact ⟨.errorObj "INTERNAL", rfl, by decide⟩

/-- C5: when the API response of an attempt the wrapper actually makes
has an inline-image part among the parts of its first candidate,
`generateCharacterImage` resolves with exactly the string
`data: <mime> ;base64, <data>` taken from the first such part. -/
theorem c5_inline_image_result (urls : List String) (o : Nat → ApiOutcome) (k : Nat)
    (r : GenResponse) (ps : List RespPart) (p : RespPart) (d : InlineData)
    (hcall : Event.apiCall k ∈ (generateCharacterImage urls o).1)
    (hr : o k = .response r)
    (hps : firstCandidateParts r = some ps)
    (hfind : ps.find? (fun q => q.inlineData.isSome) = some p)
    (hd : p.inlineData = some d) :
    (generateCharacterImage urls o).2 =
      .ok ("data:" ++ d.mimeType ++ ";base64," ++ d.data) := by
  have hstep : attemptStep (o k) = .ok (mkDataUrl d) := by
    rw [hr]
    simp [attemptStep, firstInlinePart, hps, hfind, hd]
  cases hok : imagePartsOf charInvalidMsg urls with
  | error msg =>
    have hrun : generateCharacterImage urls o = ([], .error msg) := by
      unfold generateCharacterImage; rw [hok]
    rw [hrun] at hcall
    simp at hcall
  | ok qs =>
    have hrun : generateCharacterImage urls o = retryRun charMsgs o 1 maxRetries := by
      unfold generateCharacterImage; rw [hok]
    rw [hrun] at hcall ⊢
    rcases retryRun_shape charMsgs o with ⟨u, h1, hsh⟩ | ⟨e, h1, hre, hsh⟩ |
      ⟨e1, h1, hre1, ⟨u, h2, hsh⟩ | ⟨e2, h2, hre2, hsh⟩ |
        ⟨e2, h2, hre2, ⟨u, h3, hsh⟩ | ⟨e3, h3, hsh⟩⟩⟩ <;> rw [hsh] at hcall ⊢ <;> simp at hcall ⊢
    · subst hcall
      rw [h1] at hstep
      simp only [Except.ok.injEq] at hstep
      rw [hstep, mkDataUrl]
    · subst hcall
      rw [h1] at hstep
      exact Except.noConfusion hstep
    · rcases hcall with rfl | rfl
      · rw [h1] at hstep; exact Except.noConfusion hstep
      · rw [h2] at hstep
        simp only [Except.ok.injEq] at hstep
        rw [hstep, mkDataUrl]
    · rcases hcall with rfl | rfl
      · rw [h1] at hstep; exact Except.noConfusion hstep
      · rw [h2] at hstep; exact Except.noConfusion hstep
    · rcases hcall with rfl | rfl | rfl
      · rw [h1] at hstep; exact Except.noConfusion hstep
      · rw [h2] at hstep; exact Except.noConfusion hstep
      · rw [h3] at hstep
        simp only [Except.ok.injEq] at hstep
        rw [hstep, mkDataUrl]
    · rcases hcall with rfl | rfl | rfl
      · rw [h1] at hstep; exact Except.noConfusion hstep
      · rw [h2] at hstep; exact Except.noConfusion hstep
      · rw [h3] at hstep; exact Except.noConfusion hstep

theorem c5_inline_image_result_witness :
    (generateCharacterImage [] oracleW).2 =
      .ok ("data:" ++ "image/png" ++ ";base64," ++ "QUJD") := by
  refine c5_inline_image_result [] oracleW 2 okResponseW
    [{ inlineData := some ⟨"image/png", "QUJD"⟩ }]
    { inlineData := some ⟨"image/png", "QUJD"⟩ } ⟨"image/png", "QUJD"⟩
    (by decide) rfl rfl rfl rfl

/-- C3: `createCharacterSheet` composes a single 3508 x 2480 canvas; the
grid is 3 columns by 2 rows; the completed image with index `i` (in
entry order of the completed-image map) is drawn in column `i % 3` and
row `i / 3`; the whole sheet is emitted as one JPEG data URL passed to
`onComplete`. -/
theorem c3_sheet_grid_layout (imageData : ImagesMap)
    (toDataURL : String → Nat → Nat → List (String × String × Nat × Nat) → String) :
    (createCharacterSheet imageData toDataURL).canvasWidth = 3508 ∧
    (createCharacterSheet imageData toDataURL).canvasHeight = 2480 ∧
    sheetGridSpec.cols = 3 ∧ sheetGridSpec.rows = 2 ∧
    (∀ i : Nat, ((createCharacterSheet imageData toDataURL).draws).get? i =
      ((completedImages imageData).get? i).map (fun e => (e.1, e.2, i % 3, i / 3))) ∧
    (createCharacterSheet imageData toDataURL).onCompleteArgs =
      [toDataURL "image/jpeg" 3508 2480 (createCharacterSheet imageData toDataURL).draws] := by
  refine ⟨rfl, rfl, rfl, rfl, ?_, rfl⟩
  intro i
  simp only [createCharacterSheet, sheetGridSpec]
  rw [List.get?_map, List.get?_enum]
  cases h : (completedImages imageData).get? i with
  | none => simp
  | some e => simp

lemma processPose_snd (g : String → Except String String) (m : ImagesMap) (p : String) :
    (processPose g m p).2 = isOkE (g p) := by
  cases h : g p <;> simp [processPose, h, isOkE]

lemma sheetLoop_events (g : String → Except String String) :
    ∀ (ps : List String) (m : ImagesMap),
      (sheetLoop g ps m).2 =
        (ps.map (fun p => [PoseEvent.requestStart p,
          PoseEvent.requestEnd p (isOkE (g p)), PoseEvent.wait 1000])).join
  | [], m => by simp [sheetLoop]
  | p :: rest, m => by
    simp [sheetLoop, processPose_snd, sheetLoop_events g rest]

/-- C6: once the approval guard passes, the five remaining poses are
requested strictly sequentially in the fixed order Side View, Back View,
Action Pose, Happy Expression, Angry Expression; each request settles
(successfully or not) before the fixed 1000 ms sleep, which precedes the
next request, so no two pose requests are in flight at once. -/
theorem c6_sequential_poses (s : AppModel) (g : String → Except String String)
    (h1 : s.uploadedImage.isSome = true) (h2 : s.baseModelImage.isSome = true)
    (h3 : s.selectedStyle.isSome = true) (h4 : s.selectedDetailedStyle.isSome = true) :
    (handleApproveAndGenerateSheet s g).2 =
      [PoseEvent.requestStart "Side View",
       PoseEvent.requestEnd "Side View" (isOkE (g "Side View")), PoseEvent.wait 1000,
       PoseEvent.requestStart "Back View",
       PoseEvent.requestEnd "Back View" (isOkE (g "Back View")), PoseEvent.wait 1000,
       PoseEvent.requestStart "Action Pose",
       PoseEvent.requestEnd "Action Pose" (isOkE (g "Action Pose")), PoseEvent.wait 1000,
       PoseEvent.requestStart "Happy Expression",
       PoseEvent.requestEnd "Happy Expression" (isOkE (g "Happy Expression")),
       PoseEvent.wait 1000,
       PoseEvent.requestStart "Angry Expression",
       PoseEvent.requestEnd "Angry Expression" (isOkE (g "Angry Expression")),
       PoseEvent.wait 1000] := by
  have n1 : s.uploadedImage.isNone = false := by
    cases hu : s.uploadedImage <;> simp_all
  have n2 : s.baseModelImage.isNone = false := by
    cases hu : s.baseModelImage <;> simp_all
  have n3 : s.selectedStyle.isNone = false := by
    cases hu : s.selectedStyle <;> simp_all
  have n4 : s.selectedDetailedStyle.isNone = false := by
    cases hu : s.selectedDetailedStyle <;> simp_all
  unfold handleApproveAndGenerateSheet
  simp only [n1, n2, n3, n4, Bool.or_self, Bool.or_false, Bool.false_or,
    Bool.false_eq_true, if_false]
  simp [sheetLoop_events, POSES]

/-- Witness state: every guard field present. -/
def appReadyW : AppModel :=
  { uploadedImage := some "u", baseModelImage := some "b",
    selectedStyle := some "2D", selectedDetailedStyle := some "manga-style" }

theorem c6_sequential_poses_witness :
    (handleApproveAndGenerateSheet appReadyW (fun p => .ok p)).2 =
      [PoseEvent.requestStart "Side View", PoseEvent.requestEnd "Side View" true,
       PoseEvent.wait 1000,
       PoseEvent.requestStart "Back View", PoseEvent.requestEnd "Back View" true,
       PoseEvent.wait 1000,
       PoseEvent.requestStart "Action Pose", PoseEvent.requestEnd "Action Pose" true,
       PoseEvent.wait 1000,
       PoseEvent.requestStart "Happy Expression",
       PoseEvent.requestEnd "Happy Expression" true, PoseEvent.wait 1000,
       PoseEvent.requestStart "Angry Expression",
       PoseEvent.requestEnd "Angry Expression" true, PoseEvent.wait 1000] := by
  have h := c6_sequential_poses appReadyW (fun p => .ok p) rfl rfl rfl rfl
  simpa [isOkE] using h

lemma any_beq_iff (m : ImagesMap) (k : String) :
    m.any (fun e => e.1 == k) = true ↔ k ∈ m.map Prod.fst := by
  rw [List.any_eq_true]
  constructor
  · rintro ⟨e, hmem, he⟩
    exact List.mem_map.mpr ⟨e, hmem, by simpa using he⟩
  · intro hk
    obtain ⟨e, hmem, he⟩ := List.mem_map.mp hk
    exact ⟨e, hmem, by simp [he]⟩

lemma upsert_keys_mem (m : ImagesMap) (k : String) (v : GeneratedImage)
    (h : k ∈ m.map Prod.fst) :
    (upsert m k v).map Prod.fst = m.map Prod.fst := by
  unfold upsert
  rw [if_pos ((any_beq_iff m k).mpr h)]
  rw [List.map_map]
  apply List.map_congr_left
  intro e hmem
  by_cases he : e.1 = k
  · simp [Function.comp, he]
  · simp [Function.comp, he]

lemma upsert_keys_not_mem (m : ImagesMap) (k : String) (v : GeneratedImage)
    (h : ¬ k ∈ m.map Prod.fst) :
    (upsert m k v).map Prod.fst = m.map Prod.fst ++ [k] := by
  unfold upsert
  rw [if_neg (fun hc => h ((any_beq_iff m k).mp hc))]
  simp

lemma validImages_upsert (m : ImagesMap) (k : String) (v : GeneratedImage)
    (hv : validImages m) (hk : k ∈ POSES) : validImages (upsert m k v) := by
  by_cases h : k ∈ m.map Prod.fst
  · exact ⟨by rw [upsert_keys_mem m k v h]; exact hv.1,
           by rw [upsert_keys_mem m k v h]; exact hv.2⟩
  · constructor
    · rw [upsert_keys_not_mem m k v h]
      exact hv.1.append (List.nodup_singleton k) (List.disjoint_singleton.mpr h)
    · rw [upsert_keys_not_mem m k v h]
      intro x hx
      rcases List.mem_append.mp hx with hx | hx
      · exact hv.2 x hx
      · simp at hx
        subst hx
        exact hk

lemma validImages_foldl_pending :
    ∀ (ps : List String) (m : ImagesMap), (∀ p ∈ ps, p ∈ POSES) → validImages m →
      validImages (ps.foldl (fun m pose => upsert m pose pendingImage) m)
  | [], m => fun _ hv => hv
  | p :: rest, m => fun hsub hv => by
    simp only [List.foldl_cons]
    exact validImages_foldl_pending rest (upsert m p pendingImage)
      (fun q hq => hsub q (List.mem_cons_of_mem p hq))
      (validImages_upsert m p pendingImage hv (hsub p (List.mem_cons_self p rest)))

lemma validImages_sheetLoop (g : String → Except String String) :
    ∀ (ps : List String) (m : ImagesMap), (∀ p ∈ ps, p ∈ POSES) → validImages m →
      validImages (sheetLoop g ps m).1
  | [], m => fun _ hv => hv
  | p :: rest, m => fun hsub hv => by
    have hp : p ∈ POSES := hsub p (List.mem_cons_self p rest)
    have hv' : validImages (processPose g m p).1 := by
      cases hgp : g p with
      | ok url => simpa [processPose, hgp] using validImages_upsert m p _ hv hp
      | error msg => simpa [processPose, hgp] using validImages_upsert m p _ hv hp
    simpa [sheetLoop] using
      validImages_sheetLoop g rest (processPose g m p).1
        (fun q hq => hsub q (List.mem_cons_of_mem p hq)) hv'

/-- C7: starting from any state whose generated-images map satisfies the
invariant (each pose key at most once, every key one of the six pose
labels), every modelled update of the map — base-model generation,
sheet generation with its per-pose successes and failures, a character
edit, and reset — produces a map satisfying the invariant again. -/
theorem c7_images_invariant (s : AppModel) (hv : validImages s.generatedImages)
    (r : Except String String) (g : String → Except String String)
    (ctx url : String) :
    validImages baseModelPendingImages ∧
    validImages (generateBaseModel s r).generatedImages ∧
    validImages ((handleApproveAndGenerateSheet s g).1.generatedImages) ∧
    validImages ((handleCharacterEdited s ctx url).generatedImages) ∧
    validImages ((handleReset s).generatedImages) := by
  refine ⟨by decide, ?_, ?_, ?_, ?_⟩
  · unfold generateBaseModel
    cases hguard : (s.uploadedImage.isNone || s.selectedStyle.isNone ||
        s.selectedDetailedStyle.isNone) with
    | true => simpa [hguard] using hv
    | false =>
      cases r <;> simp [hguard, validImages, POSES]
  · unfold handleApproveAndGenerateSheet
    cases hguard : (s.uploadedImage.isNone || s.baseModelImage.isNone ||
        s.selectedStyle.isNone || s.selectedDetailedStyle.isNone) with
    | true => simpa [hguard] using hv
    | false =>
      simp only [hguard, Bool.false_eq_true, if_false]
      exact validImages_sheetLoop g (POSES.drop 1) _
        (fun q hq => List.drop_subset 1 POSES hq)
        (validImages_foldl_pending (POSES.drop 1) s.generatedImages
          (fun q hq => List.drop_subset 1 POSES hq) hv)
  · unfold handleCharacterEdited
    by_cases hctx : (ctx == "scene") = true
    · simpa [hctx] using hv
    · simp only [hctx, Bool.false_eq_true, if_false]
      exact validImages_upsert s.generatedImages _ _ hv (by simp [POSES])
  · simp [handleReset, validImages]

theorem c7_images_invariant_witness :
    validImages (generateBaseModel appReadyW (.ok "u")).generatedImages ∧
    validImages ((handleApproveAndGenerateSheet appReadyW (fun p => .ok p)).1.generatedImages) := by
  have h := c7_images_invariant appReadyW (by decide) (.ok "u") (fun p => .ok p)
    "character" "u2"
  exact ⟨h.2.1, h.2.2.1⟩

lemma completedImages_keys (m : ImagesMap) :
    (completedImages m).map Prod.fst =
      (m.filter (fun e => e.2.status == "done" && urlTruthy e.2.url)).map Prod.fst := by
  unfold completedImages
  rw [List.map_map]
  rfl

lemma mem_completedKeys_iff (m : ImagesMap) (p : String) :
    p ∈ (completedImages m).map Prod.fst ↔ poseCompletedB m p = true := by
  rw [completedImages_keys]
  unfold poseCompletedB
  rw [List.any_eq_true]
  constructor
  · intro h
    obtain ⟨e, hmem, he⟩ := List.mem_map.mp h
    obtain ⟨hm, hpred⟩ := List.mem_filter.mp hmem
    exact ⟨e, hm, by simp_all⟩
  · rintro ⟨e, hm, hcond⟩
    simp only [Bool.and_eq_true, beq_iff_eq] at hcond
    exact List.mem_map.mpr
      ⟨e, List.mem_filter.mpr ⟨hm, by simp [hcond.2.1, hcond.2.2]⟩, hcond.1⟩

lemma completed_count_iff (m : ImagesMap) (hv : validImages m) :
    ((completedImages m).map Prod.fst).dedup.length < POSES.length ↔
      ¬ allPosesCompleted m := by
  have hnd : ((completedImages m).map Prod.fst).Nodup := by
    rw [completedImages_keys]
    exact List.Nodup.sublist
      (List.Sublist.map Prod.fst (List.filter_sublist m)) hv.1
  have hsub : (completedImages m).map Prod.fst ⊆ POSES := by
    intro k hk
    rw [completedImages_keys] at hk
    obtain ⟨e, hmem, he⟩ := List.mem_map.mp hk
    exact hv.2 k (List.mem_map.mpr ⟨e, (List.mem_filter.mp hmem).1, he⟩)
  rw [List.dedup_eq_self.mpr hnd]
  have hPnd : POSES.Nodup := by decide
  constructor
  · intro hlt hall
    have hPs : POSES ⊆ (completedImages m).map Prod.fst :=
      fun p hp => (mem_completedKeys_iff m p).mpr (hall p hp)
    have := (hPnd.subperm hPs).length_le
    omega
  · intro hnall
    by_contra hge
    push_neg at hge
    have hperm := (hnd.subperm hsub).perm_of_length_le hge
    exact hnall (fun p hp => (mem_completedKeys_iff m p).mp (hperm.mem_iff.mpr hp))

/-- C9: with fewer than all six poses completed, `handleDownloadSheet`
only shows the wait alert and returns — `createCharacterSheet` is not
invoked, nothing is downloaded, and the generated-images map is left
unchanged; the sheet is composited and downloaded exactly when every
pose is completed. -/
theorem c9_download_guard (s : AppModel)
    (toDataURL : String → Nat → Nat → List (String × String × Nat × Nat) → String)
    (hv : validImages s.generatedImages) :
    (¬ allPosesCompleted s.generatedImages →
      handleDownloadSheet s toDataURL =
        ⟨{ s with isDownloading := false }, [alertAllImages], false, []⟩) ∧
    (allPosesCompleted s.generatedImages →
      handleDownloadSheet s toDataURL =
        ⟨{ s with isDownloading := false }, [], true,
         (createCharacterSheet s.generatedImages toDataURL).onCompleteArgs⟩) := by
  have hiff := completed_count_iff s.generatedImages hv
  constructor
  · intro hn
    simp only [handleDownloadSheet]
    rw [if_pos (hiff.mpr hn)]
  · intro hall
    simp only [handleDownloadSheet]
    rw [if_neg (fun hlt => (hiff.mp hlt) hall)]

/-- Witness encoder standing in for `canvas.toDataURL`. -/
def toDataURLW : String → Nat → Nat → List (String × String × Nat × Nat) → String :=
  fun _ _ _ _ => "sheet"

/-- Witness state with every pose completed. -/
def sFullW : AppModel :=
  { generatedImages := POSES.map (fun p => (p, ⟨"done", some "img", none⟩)) }

theorem c9_download_guard_witness :
    handleDownloadSheet {} toDataURLW =
      ⟨{ ({} : AppModel) with isDownloading := false }, [alertAllImages], false, []⟩ ∧
    handleDownloadSheet sFullW toDataURLW =
      ⟨{ sFullW with isDownloading := false }, [], true,
       (createCharacterSheet sFullW.generatedImages toDataURLW).onCompleteArgs⟩ := by
  refine ⟨(c9_download_guard {} toDataURLW (by decide)).1 (by decide),
          (c9_download_guard sFullW toDataURLW (by decide)).2 (by decide)⟩

/-- C10: `handleImageUpload` rejects a file over `4 * 1024 * 1024` bytes
— it alerts, resets the file input and leaves the whole state unchanged —
and accepts a file at or below the limit, storing its data URL as
`uploadedImage`, moving to style selection and clearing the previous
generation state. -/
theorem c10_upload_size_limit (s : AppModel) (f : UploadFile) (rest : List UploadFile) :
    (f.size > MAX_FILE_SIZE_BYTES →
      handleImageUpload s (f :: rest) =
        ⟨s, ["File is too large. Please upload an image smaller than " ++
             toString MAX_FILE_SIZE_MB ++ "MB."], true⟩) ∧
    (f.size ≤ MAX_FILE_SIZE_BYTES →
      handleImageUpload s (f :: rest) =
        ⟨{ s with uploadedImage := some f.dataUrl,
                  appState := "style-selection",
                  generatedImages := [],
                  baseModelImage := none,
                  selectedStyle := none,
                  selectedDetailedStyle := none }, [], false⟩) := by
  constructor
  · intro h
    simp only [handleImageUpload]
    rw [if_pos h]
  · intro h
    simp only [handleImageUpload]
    rw [if_neg (Nat.not_lt.mpr h)]

theorem c10_upload_size_limit_witness :
    handleImageUpload {} [⟨4 * 1024 * 1024 + 1, "big"⟩] =
      ⟨{}, ["File is too large. Please upload an image smaller than " ++
            toString MAX_FILE_SIZE_MB ++ "MB."], true⟩ ∧
    handleImageUpload {} [⟨4 * 1024 * 1024, "ok"⟩] =
      ⟨{ uploadedImage := some "ok", appState := "style-selection" }, [], false⟩ := by
  constructor
  · exact (c10_upload_size_limit {} ⟨4 * 1024 * 1024 + 1, "big"⟩ []).1 (by decide)
  · exact (c10_upload_size_limit {} ⟨4 * 1024 * 1024, "ok"⟩ []).2 (by decide)

end CharacterCrafter
